import Mathlib

/-!
Verification of the block-integrity layer of the opentron full node
(`chain/src/indexed_block.rs`): construction of `IndexedBlock` values from
raw wire-format blocks, merkle-root computation and verification, block
number derivation, and the historical anomaly whitelist.

Shallow embedding conventions:
* Byte strings are `List Nat` (each entry a byte value; well-formedness
  `< 256` is a hypothesis where it matters).
* The raw transaction type is an arbitrary type `Tx`; the external canonical
  encoder (`prost`), the 256-bit hash primitive (`crypto::sha256`) and the
  per-value hash functions of the thin wrapper types are abstract function
  parameters, so every theorem holds for all instantiations of the external
  collaborators.
* Rust panics (`Option::unwrap` on `None`) are rendered as `Option.none`
  results: a function that can panic returns `Option _`, and `none` marks the
  aborted computation.
-/

namespace OpenTron

/-- Raw header payload (`proto2::chain::block_header::Raw`): the stored
merkle-root byte field, plus the remaining fields kept opaque as bytes. -/
structure BlockHeaderRawData where
  merkle_root_hash : List Nat
  rest : List Nat
deriving DecidableEq

/-- Raw block header (`proto2::chain::BlockHeader`): optional raw payload plus
the witness signature bytes. -/
structure BlockHeader where
  raw_data : Option BlockHeaderRawData
  witness_signature : List Nat
deriving DecidableEq

/-- Raw wire-format block (`proto2::chain::Block`): optional header and an
ordered transaction list. -/
structure Block (Tx : Type) where
  block_header : Option BlockHeader
  transactions : List Tx
deriving DecidableEq

/-- A raw transaction paired with its cached hash (`IndexedTransaction`). -/
structure IndexedTransaction (Tx : Type) where
  raw : Tx
  hash : List Nat
deriving DecidableEq

/-- A raw header paired with its cached block hash (`IndexedBlockHeader`). -/
structure IndexedBlockHeader where
  raw : BlockHeader
  hash : List Nat
deriving DecidableEq

/-- `IndexedBlock`: an indexed header plus indexed transactions. -/
structure IndexedBlock (Tx : Type) where
  header : IndexedBlockHeader
  transactions : List (IndexedTransaction Tx)
deriving DecidableEq

/-- Block identifier (`proto2::common::BlockId`). -/
structure BlockId where
  number : Int
  hash : List Nat
deriving DecidableEq

variable {Tx : Type}

/-- Modelled from the spec: `IndexedTransaction::from_raw` (defined outside
`src/`) pairs one raw transaction with a cached hash computed once at
construction; the hash function itself is the abstract parameter `txHash`. -/
def IndexedTransaction.from_raw (txHash : Tx → List Nat) (tx : Tx) :
    IndexedTransaction Tx :=
  ⟨tx, txHash tx⟩

/-- Modelled from the spec: `IndexedBlockHeader::from_raw` (defined outside
`src/`) pairs one raw header with its cached block hash, computed once at
construction by the abstract parameter `headerHash`. -/
def IndexedBlockHeader.from_raw (headerHash : BlockHeader → List Nat)
    (h : BlockHeader) : IndexedBlockHeader :=
  ⟨h, headerHash h⟩

/-- One pairing pass of the binary hash tree: adjacent leaves are combined
with the hash primitive; a lone trailing leaf is carried up unchanged. -/
def combineLevel (h : List Nat → List Nat) : List (List Nat) → List (List Nat)
  | [] => []
  | [x] => [x]
  | x :: y :: rest => h (x ++ y) :: combineLevel h rest

/-- Fuel-indexed bottom-up fold of tree levels; `fuel = leaves.length`
always suffices since each pass at least halves a two-or-more level. -/
def merkleRootAux (h : List Nat → List Nat) : Nat → List (List Nat) → List Nat
  | _, [] => h []
  | _, [x] => x
  | 0, x :: _ :: _ => x
  | fuel + 1, x :: y :: rest => merkleRootAux h fuel (combineLevel h (x :: y :: rest))

/-- Modelled from the spec: `MerkleTree` (`crate::merkle_root`, not under
`src/`) builds an ordered binary hash tree over an ordered sequence of leaf
digests and exposes the root digest; the empty-leaf-set and odd-count policy
are implementation-defined, fixed here as hash-of-empty and carry-last-up. -/
def MerkleTree.rootOf (h : List Nat → List Nat) (leaves : List (List Nat)) :
    List Nat :=
  merkleRootAux h leaves.length leaves

/-- `get_transaction_hash_for_merkle_root`: a single application of the hash
primitive to the transaction's full canonical wire encoding. -/
def get_transaction_hash_for_merkle_root (sha256 : List Nat → List Nat)
    (encode : Tx → List Nat) (transaction : Tx) : List Nat :=
  sha256 (encode transaction)

/-- `merkle_root`: leaf digests in transaction order, fed to the tree builder. -/
def merkle_root (sha256 : List Nat → List Nat) (encode : Tx → List Nat)
    (transactions : List (IndexedTransaction Tx)) : List Nat :=
  MerkleTree.rootOf sha256
    (transactions.map fun txn => get_transaction_hash_for_merkle_root sha256 encode txn.raw)

/-- The historical anomaly whitelist `BLOCK_WHITELIST`: block numbers whose
merkle verification is overridden. -/
def BLOCK_WHITELIST : List Int :=
  [1102553, 1103364, 1103650, 1104274, 1104326, 1104948, 1105494, 1106300, 1106888, 1107730, 1110468, 1110780,
   1110832, 1111066, 1111222, 1111430, 1111508, 1111818, 1111896, 1111922, 1111966, 1112021, 1112026, 1112052,
   1112078, 1112099, 1112104, 1112122, 1112130, 1112156, 1112564, 1112668, 1112754, 1113222, 1114106, 1114124,
   1114205, 1114444, 1114522, 1114548, 1114938, 1115536, 1115640, 1115788, 1115822, 1116264, 1116282, 1116308,
   1116386, 1116706, 1116732, 1116758, 1116984, 1117018, 1117460, 1117668, 1117694, 1117928, 1118050, 1118292,
   1118370, 1118604, 1118758, 1118810, 1118914, 1118992, 1119408, 1119460, 1119486, 1119642, 1119660, 1119668,
   1119772, 1120032, 1120084, 1120136, 1120180, 1120344, 1120370, 1120388, 1120422, 1121124, 1121228, 1121402,
   1121696, 1121852, 1122736, 1123022, 1123568, 1123638, 1123750, 1124166, 1124756, 1124990, 1125336, 1125518,
   1125750, 1125846, 1126192, 1126314, 1126340, 1126582, 1127128, 1127536, 1128272, 1129000, 1129858, 1129910,
   1129962, 1130118, 1130690, 1131028, 1131626, 1132922, 1132941, 1132976, 1133084, 1134406, 1135135, 1135513,
   1135675, 1135702, 1135837, 1135918, 1135972]

/-- `byteorder::BE::read_u64`: big-endian (Horner) value of a byte string. -/
def readU64BE (bytes : List Nat) : Nat :=
  bytes.foldl (fun acc b => acc * 256 + b) 0

/-- The Rust `as i64` reinterpretation of a `u64` value: bit-preserving
two's-complement conversion. -/
def toI64 (n : Nat) : Int :=
  if n < 2 ^ 63 then (n : Int) else (n : Int) - 2 ^ 64

namespace IndexedBlock

/-- `IndexedBlock::new`. -/
def new (header : IndexedBlockHeader)
    (transactions : List (IndexedTransaction Tx)) : IndexedBlock Tx :=
  ⟨header, transactions⟩

/-- `IndexedBlock::from_raw`: hashes the transactions, requires the header
(`unwrap`) and its raw payload (`unwrap`), backfills the merkle-root field
when it is empty, then hashes the header. `none` marks the panic paths. -/
def from_raw (sha256 : List Nat → List Nat) (encode : Tx → List Nat)
    (txHash : Tx → List Nat) (headerHash : BlockHeader → List Nat)
    (block : Block Tx) : Option (IndexedBlock Tx) :=
  let transactions := block.transactions.map (IndexedTransaction.from_raw txHash)
  match block.block_header with
  | none => none
  | some bh =>
    match bh.raw_data with
    | none => none
    | some rd =>
      let rd' := { rd with merkle_root_hash := merkle_root sha256 encode transactions }
      let bh' :=
        if rd.merkle_root_hash = [] then { bh with raw_data := some rd' }
        else bh
      some (new (IndexedBlockHeader.from_raw headerHash bh') transactions)

/-- `IndexedBlock::from_header_and_txns`. -/
def from_header_and_txns (sha256 : List Nat → List Nat) (encode : Tx → List Nat)
    (txHash : Tx → List Nat) (headerHash : BlockHeader → List Nat)
    (header : BlockHeader) (txns : List Tx) : Option (IndexedBlock Tx) :=
  from_raw sha256 encode txHash headerHash ⟨some header, txns⟩

/-- `IndexedBlock::hash`. -/
def hash (b : IndexedBlock Tx) : List Nat :=
  b.header.hash

/-- `IndexedBlock::number`: first 8 bytes of the block hash, big-endian
`u64`, reinterpreted `as i64`. -/
def number (b : IndexedBlock Tx) : Int :=
  toI64 (readU64BE (b.header.hash.take 8))

/-- `IndexedBlock::block_id`. -/
def block_id (b : IndexedBlock Tx) : BlockId :=
  ⟨number b, b.header.hash⟩

/-- `IndexedBlock::into_raw_block`: rebuilds the raw block, dropping the
cached hashes. -/
def into_raw_block (b : IndexedBlock Tx) : Block Tx :=
  ⟨some b.header.raw, b.transactions.map (·.raw)⟩

/-- `IndexedBlock::size`: `prost::Message::encoded_len` of the rebuilt raw
block; the prost length function is the abstract parameter. -/
def size (blockEncodedLen : Block Tx → Nat) (b : IndexedBlock Tx) : Nat :=
  blockEncodedLen (into_raw_block b)

/-- `IndexedBlock::merkle_root_hash`: stored merkle-root field of the header
(`unwrap` of the raw payload rendered as `Option`). -/
def merkle_root_hash (b : IndexedBlock Tx) : Option (List Nat) :=
  b.header.raw.raw_data.map (·.merkle_root_hash)

/-- `IndexedBlock::verify_merkle_root_hash`: whitelist override, else
byte-for-byte comparison of the stored and recomputed roots. Both branches
read the stored field, so a missing raw payload is a panic (`none`). -/
def verify_merkle_root_hash (sha256 : List Nat → List Nat)
    (encode : Tx → List Nat) (b : IndexedBlock Tx) : Option Bool :=
  match b.header.raw.raw_data with
  | none => none
  | some rd =>
    if number b ∈ BLOCK_WHITELIST then some true
    else if rd.merkle_root_hash = merkle_root sha256 encode b.transactions then some true
    else some false

/-- `IndexedBlock::verify_merkle_root_hash` with the `&self` receiver made
explicit: the block value is threaded through and returned alongside the
boolean, mirroring that the function only reads the block. -/
def verify_merkle_root_hash_run (sha256 : List Nat → List Nat)
    (encode : Tx → List Nat) (b : IndexedBlock Tx) :
    Option (Bool × IndexedBlock Tx) :=
  match b.header.raw.raw_data with
  | none => none
  | some rd =>
    if number b ∈ BLOCK_WHITELIST then some (true, b)
    else if rd.merkle_root_hash = merkle_root sha256 encode b.transactions then
      some (true, b)
    else some (false, b)

/-- `impl PartialEq for IndexedBlock`: equality is header-hash equality. -/
def eqb (a b : IndexedBlock Tx) : Bool :=
  a.header.hash == b.header.hash

end IndexedBlock

/-! ### Spec-side definition for the number-derivation claim -/

/-- Spec-side definition: the positional big-endian value of a byte string,
`b₀·256^(n-1) + b₁·256^(n-2) + ⋯ + b_{n-1}` — "interpreted as a big-endian
unsigned integer" written as a positional sum, independently of the Horner
fold the `byteorder` embedding uses. -/
def specBigEndianValue : List Nat → Nat
  | [] => 0
  | b :: bs => b * 256 ^ bs.length + specBigEndianValue bs

/-! ### Concrete instantiations of the external collaborators,
used to evaluate the theorems on closed inputs. -/

/-- A concrete stand-in for the 256-bit hash primitive: 32 bytes, each the
byte-sum of the input (shifted so that distinct small inputs differ). -/
def demoHash : List Nat → List Nat :=
  fun l => List.replicate 32 ((l.foldl (fun a b => a + b + 1) 0) % 256)

/-- A concrete stand-in for the canonical transaction encoder over `Tx = Nat`. -/
def demoEncode : Nat → List Nat := fun n => [n % 256]

/-- A concrete stand-in for the cached transaction-id hash over `Tx = Nat`. -/
def demoTxHash : Nat → List Nat := fun n => [n % 256, 1]

/-- A concrete stand-in for the block-header hash. -/
def demoHeaderHash : BlockHeader → List Nat := fun _ => List.replicate 32 0

/-- A concrete stand-in for the canonical block encoder over `Tx = Nat`. -/
def demoBlockEncode : Block Nat → List Nat :=
  fun blk => (blk.transactions.map (· % 256)) ++ [blk.transactions.length % 256]

/-- The prost `encoded_len` counterpart of `demoBlockEncode`. -/
def demoBlockEncodedLen : Block Nat → Nat :=
  fun blk => (demoBlockEncode blk).length

/-- A raw block whose header is present and whose stored merkle-root field is
empty: the backfill case of `from_raw`. -/
def cexBlock : Block Nat := ⟨some ⟨some ⟨[], []⟩, []⟩, []⟩

/-- A raw block with a non-empty stored merkle-root field. -/
def wBlock : Block Nat := ⟨some ⟨some ⟨[1], []⟩, [7]⟩, [5, 6]⟩

/-- The raw payload of `w2Block`'s header: empty merkle-root field. -/
def w2Rd : BlockHeaderRawData := ⟨[], [2]⟩

/-- The header of `w2Block`. -/
def w2Bh : BlockHeader := ⟨some w2Rd, [4]⟩

/-- A raw block with header present, raw payload present, empty merkle-root
field and two transactions. -/
def w2Block : Block Nat := ⟨some w2Bh, [1, 2]⟩

/-- An `IndexedBlock` whose header hash starts with the big-endian bytes of
`1102553`, a whitelisted block number; its stored root is unrelated to its
(empty) transaction list. -/
def wlBlock : IndexedBlock Nat :=
  ⟨⟨⟨some ⟨[3], []⟩, []⟩, [0, 0, 0, 0, 0, 16, 210, 217] ++ List.replicate 24 0⟩, []⟩

/-- An `IndexedBlock` with number 0 (not whitelisted) and a stored root that
does not match the recomputed one. -/
def nwBlock : IndexedBlock Nat :=
  ⟨⟨⟨some ⟨[9, 9], []⟩, []⟩, List.replicate 32 0⟩, []⟩

/-- A raw block whose header is present but whose header raw payload is
absent: `from_raw` hits the inner `unwrap`. -/
def noRdBlock : Block Nat := ⟨some ⟨none, []⟩, []⟩

/-- A raw block on which `from_raw` succeeds. -/
def goodBlock : Block Nat := ⟨some ⟨some ⟨[1], []⟩, []⟩, []⟩

/-! ### Helper lemmas -/

/-- The Horner fold of `readU64BE` computes the positional big-endian sum. -/
theorem foldl_base256_eq (l : List Nat) :
    ∀ acc, l.foldl (fun a b => a * 256 + b) acc =
      acc * 256 ^ l.length + specBigEndianValue l := by
  induction l with
  | nil => intro acc; simp [specBigEndianValue]
  | cons b bs ih =>
    intro acc
    simp only [List.foldl_cons, List.length_cons, specBigEndianValue, ih]
    ring

/-- The big-endian value of a byte string is bounded by `256 ^ length`. -/
theorem specBigEndianValue_lt (l : List Nat) (hb : ∀ x ∈ l, x < 256) :
    specBigEndianValue l < 256 ^ l.length := by
  induction l with
  | nil => simp [specBigEndianValue]
  | cons b bs ih =>
    have hb0 : b < 256 := hb b (List.mem_cons_self b bs)
    have ih' : specBigEndianValue bs < 256 ^ bs.length :=
      ih (fun x hx => hb x (List.mem_cons_of_mem b hx))
    calc b * 256 ^ bs.length + specBigEndianValue bs
        < b * 256 ^ bs.length + 256 ^ bs.length := by omega
      _ = (b + 1) * 256 ^ bs.length := by ring
      _ ≤ 256 * 256 ^ bs.length := Nat.mul_le_mul_right _ (by omega)
      _ = 256 ^ (bs.length + 1) := by ring

/-! ### Claim theorems -/

/-- Claim C5: the merkle root takes, for each transaction in list order,
exactly one application of the hash primitive to the transaction's full
canonical wire encoding, feeds these leaf digests in that order into the
merkle tree builder, and returns the tree's root digest; in particular the
cached transaction-id hashes play no role. -/
theorem merkle_root_spec {Tx : Type} (sha256 : List Nat → List Nat)
    (encode : Tx → List Nat) :
    (∀ txs : List (IndexedTransaction Tx),
      merkle_root sha256 encode txs =
        MerkleTree.rootOf sha256 (txs.map fun t => sha256 (encode t.raw))) ∧
    (∀ txs txs' : List (IndexedTransaction Tx),
      txs.map IndexedTransaction.raw = txs'.map IndexedTransaction.raw →
      merkle_root sha256 encode txs = merkle_root sha256 encode txs') := by
  constructor
  · intro txs
    rfl
  · intro txs txs' h
    unfold merkle_root get_transaction_hash_for_merkle_root
    have hmap : txs.map (fun t => sha256 (encode t.raw)) =
        txs'.map (fun t => sha256 (encode t.raw)) := by
      have h2 := congrArg (List.map fun r => sha256 (encode r)) h
      simpa [List.map_map, Function.comp] using h2
    rw [hmap]

/-- Witness for C5 at concrete inputs: two one-element transaction lists with
the same raw transaction but different cached hashes yield the same root. -/
theorem merkle_root_spec_witness :
    merkle_root demoHash demoEncode [⟨1, [9]⟩] =
      merkle_root demoHash demoEncode [⟨1, [7]⟩] :=
  (merkle_root_spec demoHash demoEncode).2 [⟨1, [9]⟩] [⟨1, [7]⟩] rfl

/-- Claim C6: for every raw block whose header is absent, `from_raw` aborts
(returns no value at all) rather than returning any `IndexedBlock`. -/
theorem from_raw_none_of_no_header {Tx : Type} (sha256 : List Nat → List Nat)
    (encode txHash : Tx → List Nat) (headerHash : BlockHeader → List Nat)
    (blk : Block Tx) (h : blk.block_header = none) :
    IndexedBlock.from_raw sha256 encode txHash headerHash blk = none := by
  simp [IndexedBlock.from_raw, h]

/-- Witness for C6: a concrete headerless raw block. -/
theorem from_raw_none_of_no_header_witness :
    IndexedBlock.from_raw demoHash demoEncode demoTxHash demoHeaderHash
      (⟨none, [3]⟩ : Block Nat) = none :=
  from_raw_none_of_no_header demoHash demoEncode demoTxHash demoHeaderHash _ rfl

/-- Claim C9: equality of `IndexedBlock`s holds iff their header hashes are
equal; in particular two blocks with the same header hash but different
transaction lists compare equal, so the transaction lists play no part in
block identity. -/
theorem eqb_spec {Tx : Type} :
    (∀ a b : IndexedBlock Tx,
      IndexedBlock.eqb a b = true ↔ a.header.hash = b.header.hash) ∧
    (∀ (h : IndexedBlockHeader) (t1 t2 : List (IndexedTransaction Tx)),
      IndexedBlock.eqb ⟨h, t1⟩ ⟨h, t2⟩ = true) := by
  constructor
  · intro a b
    simp [IndexedBlock.eqb]
  · intro h t1 t2
    simp [IndexedBlock.eqb]

/-- Claim C4: `number()` is the first 8 bytes of the header hash read as a
big-endian unsigned 64-bit integer and reinterpreted, bit-preserving, as a
signed 64-bit integer: it lies in the `i64` range and is congruent modulo
`2^64` to the positional big-endian value of those 8 bytes. -/
theorem number_spec {Tx : Type} (b : IndexedBlock Tx)
    (hlen : 8 ≤ b.header.hash.length) (hbytes : ∀ x ∈ b.header.hash, x < 256) :
    -(2 ^ 63) ≤ IndexedBlock.number b ∧ IndexedBlock.number b < 2 ^ 63 ∧
      IndexedBlock.number b % 2 ^ 64 =
        specBigEndianValue (b.header.hash.take 8) := by
  have hlen8 : (b.header.hash.take 8).length = 8 := by
    simp [List.length_take]
    omega
  have hsub : ∀ x ∈ b.header.hash.take 8, x < 256 := by
    intro x hx
    exact hbytes x (List.mem_of_mem_take hx)
  have hval : readU64BE (b.header.hash.take 8) =
      specBigEndianValue (b.header.hash.take 8) := by
    simpa [readU64BE] using foldl_base256_eq (b.header.hash.take 8) 0
  have hlt : specBigEndianValue (b.header.hash.take 8) < 2 ^ 64 := by
    have h1 := specBigEndianValue_lt (b.header.hash.take 8) hsub
    rw [hlen8] at h1
    norm_num at h1 ⊢
    omega
  unfold IndexedBlock.number toI64
  rw [hval]
  set m := specBigEndianValue (b.header.hash.take 8) with hm
  by_cases hc : m < 2 ^ 63
  · have hc' : (m : Int) < 2 ^ 63 := by exact_mod_cast hc
    simp only [hc, if_true]
    refine ⟨by omega, hc', by omega⟩
  · have hlt' : (m : Int) < 2 ^ 64 := by exact_mod_cast hlt
    have hc' : (2 ^ 63 : Int) ≤ (m : Int) := by
      have := Nat.le_of_not_lt hc
      exact_mod_cast this
    simp only [hc, if_false]
    omega

/-- Witness for C4: the concrete whitelist-numbered block. -/
theorem number_spec_witness :
    -(2 ^ 63) ≤ IndexedBlock.number wlBlock ∧
      IndexedBlock.number wlBlock < 2 ^ 63 ∧
      IndexedBlock.number wlBlock % 2 ^ 64 =
        specBigEndianValue (wlBlock.header.hash.take 8) :=
  number_spec wlBlock (by decide) (by decide)

/-- Claim C1: for a block whose stored merkle-root field exists, if the
derived number is whitelisted then verification reports success regardless of
the comparison outcome; otherwise verification succeeds iff the recomputed
root equals, byte for byte, the root stored in the header. -/
theorem verify_merkle_root_hash_spec {Tx : Type} (sha256 : List Nat → List Nat)
    (encode : Tx → List Nat) (b : IndexedBlock Tx) (rd : BlockHeaderRawData)
    (h : b.header.raw.raw_data = some rd) :
    (IndexedBlock.number b ∈ BLOCK_WHITELIST →
      IndexedBlock.verify_merkle_root_hash sha256 encode b = some true) ∧
    (IndexedBlock.number b ∉ BLOCK_WHITELIST →
      (IndexedBlock.verify_merkle_root_hash sha256 encode b = some true ↔
        rd.merkle_root_hash = merkle_root sha256 encode b.transactions)) := by
  unfold IndexedBlock.verify_merkle_root_hash
  rw [h]
  constructor
  · intro hw
    simp [hw]
  · intro hw
    simp only [hw, if_false]
    split <;> simp_all

/-- Witness for C1: the concrete block numbered 1102553 (whitelisted) with a
stored root unrelated to its transactions still verifies. -/
theorem verify_merkle_root_hash_spec_witness :
    IndexedBlock.verify_merkle_root_hash demoHash demoEncode wlBlock = some true :=
  (verify_merkle_root_hash_spec demoHash demoEncode wlBlock ⟨[3], []⟩ rfl).1
    (by decide)

/-- Claim C2: `from_raw` backfills an empty stored merkle-root field with the
root computed from the transaction list, and leaves a non-empty field (and
the rest of the header) byte-for-byte unchanged. -/
theorem from_raw_backfill {Tx : Type} (sha256 : List Nat → List Nat)
    (encode txHash : Tx → List Nat) (headerHash : BlockHeader → List Nat)
    (blk : Block Tx) (bh : BlockHeader) (rd : BlockHeaderRawData)
    (h1 : blk.block_header = some bh) (h2 : bh.raw_data = some rd) :
    ∃ b, IndexedBlock.from_raw sha256 encode txHash headerHash blk = some b ∧
      b.header.raw.raw_data =
        some (if rd.merkle_root_hash = [] then
          { rd with merkle_root_hash := merkle_root sha256 encode (blk.transactions.map (IndexedTransaction.from_raw txHash)) }
        else rd) ∧
      (rd.merkle_root_hash ≠ [] → b.header.raw = bh) := by
  cases blk with
  | mk hdr txs =>
    have h1' : hdr = some bh := h1
    subst h1'
    cases bh with
    | mk rdo ws =>
      have h2' : rdo = some rd := h2
      subst h2'
      refine ⟨IndexedBlock.new (IndexedBlockHeader.from_raw headerHash (if rd.merkle_root_hash = [] then { raw_data := some { rd with merkle_root_hash := merkle_root sha256 encode (txs.map (IndexedTransaction.from_raw txHash)) }, witness_signature := ws } else ⟨some rd, ws⟩)) (txs.map (IndexedTransaction.from_raw txHash)), rfl, ?_, ?_⟩
      · by_cases he : rd.merkle_root_hash = [] <;>
          simp [he, IndexedBlock.new, IndexedBlockHeader.from_raw]
      · intro hne
        simp [hne, IndexedBlock.new, IndexedBlockHeader.from_raw]

/-- Witness for C2: a concrete block with an empty stored root gets the
computed root written in. -/
theorem from_raw_backfill_witness :
    ∃ b, IndexedBlock.from_raw demoHash demoEncode demoTxHash demoHeaderHash
        w2Block = some b ∧
      b.header.raw.raw_data =
        some (if w2Rd.merkle_root_hash = [] then
          { w2Rd with merkle_root_hash := merkle_root demoHash demoEncode (w2Block.transactions.map (IndexedTransaction.from_raw demoTxHash)) }
        else w2Rd) ∧
      (w2Rd.merkle_root_hash ≠ [] → b.header.raw = w2Bh) :=
  from_raw_backfill demoHash demoEncode demoTxHash demoHeaderHash w2Block w2Bh
    w2Rd rfl rfl

/-- Counterexample to claim C3 as stated: on a raw block whose header is
present but whose stored merkle-root field is empty, `from_raw` backfills the
field, so the round trip does not reproduce the original raw block. -/
theorem roundtrip_counterexample :
    ¬ ((IndexedBlock.from_raw demoHash demoEncode demoTxHash demoHeaderHash
          cexBlock).map IndexedBlock.into_raw_block = some cexBlock) := by
  decide

/-- Claim C3 (amended): for every raw block whose header and header raw
payload are present and whose stored merkle-root field is non-empty, the
conversion to `IndexedBlock` and back reproduces the raw block exactly
(the cached hashes are dropped). -/
theorem roundtrip_of_nonempty_root {Tx : Type} (sha256 : List Nat → List Nat)
    (encode txHash : Tx → List Nat) (headerHash : BlockHeader → List Nat)
    (blk : Block Tx) (bh : BlockHeader) (rd : BlockHeaderRawData)
    (h1 : blk.block_header = some bh) (h2 : bh.raw_data = some rd)
    (h3 : rd.merkle_root_hash ≠ []) :
    (IndexedBlock.from_raw sha256 encode txHash headerHash blk).map
      IndexedBlock.into_raw_block = some blk := by
  cases blk with
  | mk hdr txs =>
    have h1' : hdr = some bh := h1
    subst h1'
    unfold IndexedBlock.from_raw
    simp only [h2]
    simp [if_neg h3, IndexedBlock.into_raw_block, IndexedBlock.new,
      IndexedBlockHeader.from_raw, IndexedTransaction.from_raw, List.map_map,
      Function.comp_def]

/-- Witness for amended C3: a concrete block with a non-empty stored root
round-trips. -/
theorem roundtrip_of_nonempty_root_witness :
    (IndexedBlock.from_raw demoHash demoEncode demoTxHash demoHeaderHash
        wBlock).map IndexedBlock.into_raw_block = some wBlock :=
  roundtrip_of_nonempty_root demoHash demoEncode demoTxHash demoHeaderHash
    wBlock ⟨some ⟨[1], []⟩, [7]⟩ ⟨[1], []⟩ rfl rfl (by decide)

/-- Claim C7: verification leaves the block completely unchanged: when the
explicit-receiver rendering of `verify_merkle_root_hash` returns, the block
value it hands back is the input block, and the boolean agrees with the pure
predicate, in the matching and the mismatching case alike. -/
theorem verify_run_frame {Tx : Type} (sha256 : List Nat → List Nat)
    (encode : Tx → List Nat) (b b' : IndexedBlock Tx) (r : Bool)
    (h : IndexedBlock.verify_merkle_root_hash_run sha256 encode b = some (r, b')) :
    b' = b ∧ IndexedBlock.verify_merkle_root_hash sha256 encode b = some r := by
  unfold IndexedBlock.verify_merkle_root_hash_run at h
  unfold IndexedBlock.verify_merkle_root_hash
  cases hr : b.header.raw.raw_data with
  | none =>
    simp [hr] at h
  | some rd =>
    by_cases hw : IndexedBlock.number b ∈ BLOCK_WHITELIST
    · simp [hw] at h ⊢
      simp_all
    · by_cases hm : rd.merkle_root_hash = merkle_root sha256 encode b.transactions
      · simp [hw, hm] at h ⊢
        simp_all
      · simp [hw, hm] at h ⊢
        simp_all

/-- Witness for C7: a concrete non-whitelisted block whose stored root
mismatches; the run returns the unchanged block and `false`. -/
theorem verify_run_frame_witness :
    nwBlock = nwBlock ∧
      IndexedBlock.verify_merkle_root_hash demoHash demoEncode nwBlock =
        some false :=
  verify_run_frame demoHash demoEncode nwBlock nwBlock false (by decide)

/-- Claim C8: `size()` is the byte length of the canonical wire encoding of
the raw block rebuilt by `into_raw_block()`, given prost's contract that
`encoded_len` is the length of the encoder's output. -/
theorem size_spec {Tx : Type} (blockEncode : Block Tx → List Nat)
    (blockEncodedLen : Block Tx → Nat)
    (hc : ∀ blk, blockEncodedLen blk = (blockEncode blk).length)
    (b : IndexedBlock Tx) :
    IndexedBlock.size blockEncodedLen b =
      (blockEncode (IndexedBlock.into_raw_block b)).length := by
  simp [IndexedBlock.size, hc]

/-- Witness for C8: the concrete encoder and its length function on a
concrete block. -/
theorem size_spec_witness :
    IndexedBlock.size demoBlockEncodedLen nwBlock =
      (demoBlockEncode (IndexedBlock.into_raw_block nwBlock)).length :=
  size_spec demoBlockEncode demoBlockEncodedLen (fun _ => rfl) nwBlock

/-- Claim C10: `from_raw` requires the header's inner raw payload as well:
whenever it returns normally both the header and the header's raw payload
were present, and on a concrete block with a header but no raw payload it
aborts instead of returning an `IndexedBlock`. -/
theorem from_raw_requires_raw_data :
    (∀ (T : Type) (sha256 : List Nat → List Nat) (encode txHash : T → List Nat)
        (headerHash : BlockHeader → List Nat) (blk : Block T)
        (b : IndexedBlock T),
      IndexedBlock.from_raw sha256 encode txHash headerHash blk = some b →
      ∃ bh rd, blk.block_header = some bh ∧ bh.raw_data = some rd) ∧
    IndexedBlock.from_raw demoHash demoEncode demoTxHash demoHeaderHash
      noRdBlock = none := by
  constructor
  · intro T sha256 encode txHash headerHash blk b h
    cases blk with
    | mk hdr txs =>
      cases hdr with
      | none => simp [IndexedBlock.from_raw] at h
      | some bh =>
        cases bh with
        | mk rdo ws =>
          cases rdo with
          | none => simp [IndexedBlock.from_raw] at h
          | some rd => exact ⟨⟨some rd, ws⟩, rd, rfl, rfl⟩
  · rfl

/-- Witness for C10: a concrete successful `from_raw` implies both the
header and its raw payload were present. -/
theorem from_raw_requires_raw_data_witness :
    ∃ bh rd, goodBlock.block_header = some bh ∧ bh.raw_data = some rd :=
  from_raw_requires_raw_data.1 Nat demoHash demoEncode demoTxHash
    demoHeaderHash goodBlock
    ⟨⟨⟨some ⟨[1], []⟩, []⟩, List.replicate 32 0⟩, []⟩ (by decide)

end OpenTron
